import Mathlib

/-!
# Fresh Market Watcher — verification of the detection-and-enrichment core

Shallow embedding of the repository's core pipeline:

* `src/config/chains.ts` — chain registry and block-range estimation
  (`CHAIN_CONFIGS`, `getChainConfig`, `estimateBlocksForTimeWindow`);
* `src/services/cache.ts` — TTL cache (`Cache.get`, `Cache.set`,
  `Cache.generateKey`);
* `src/services/detector.ts` (V2+V3 variant) — `detectNewPairs`,
  `parsePairCreatedLog`, `parsePoolCreatedLog`, `deduplicatePairs`;
* `src/services/enrichment.ts` — `enrichPairData`, `getPairLiquidity`,
  `getTokenInfo`, `getTopHolders`, `formatInitialLiquidity`.

Modelling conventions:

* RPC interactions are an explicit `World` record: each query kind is a
  function from its key (factory / pair / token address) to
  `Option`-wrapped data, `none` standing for a rejected promise / thrown
  RPC call.  A settled `Promise.allSettled` branch is the corresponding
  `Option` value.
* JavaScript `bigint` amounts are `Nat` (the code only converts them
  through `toString`/`BigInt`, which is injective), block numbers are
  `Nat` for log positions and `Int` where subtraction can go negative
  (`currentBlock - blocksToScan`).
* `viem.getAddress` validates `0x` + 40 hex digits and throws otherwise;
  the EIP-55 checksum *re-casing* is not modelled (addresses are treated
  as opaque validated strings, returned unchanged).
* `Date.now()` timestamps are `Nat` milliseconds passed explicitly.
* ISO-8601 rendering of block timestamps (`created_at`) is kept as the
  raw `Nat` timestamp: the rendering is injective and no property here
  depends on the text.
* `Number.prototype.toFixed(2)` / `parseFloat(formatUnits ..)` are
  modelled as exact half-up decimal rounding over the rationals;
  IEEE-754 double rounding is not modelled (no claim depends on the
  digits of a non-zero rendering).
* Mutation of the caller's `factories` array by `Array.prototype.sort`
  inside `Cache.generateKey` is modelled by returning the sorted array
  alongside the key and threading it through `detectNewPairs`, whose
  result carries the final state of the array (`factoriesAfter`).
-/

/-- Hex-digit test for address validation. -/
def isHexDigitChar (c : Char) : Bool :=
  c.isDigit || ('a' ≤ c && c ≤ 'f') || ('A' ≤ c && c ≤ 'F')

/-- Model of `viem.getAddress`: succeeds exactly on `0x` + 40 hex digits
(checksum re-casing not modelled; the validated string is returned
unchanged). `none` models the thrown `InvalidAddressError`. -/
def getAddress (s : String) : Option String :=
  match s.data with
  | '0' :: 'x' :: rest =>
      if rest.length = 40 && rest.all isHexDigitChar then some s else none
  | _ => none

/-- The ERC-20 zero address, used by `getTopHolders` to recognise
mints and burns. -/
def ZERO_ADDRESS : String := "0x0000000000000000000000000000000000000000"

/-! ## Chain registry (`src/config/chains.ts`) -/

/-- Record `ChainConfig` from `src/config/chains.ts`.  `blockTime` is a
rational because Arbitrum's entry is `0.25`; every JavaScript division
performed on these values is exact (all registry block times divide
`windowMinutes * 60`), so the rational model coincides with the float
computation.  `commonFactories` is omitted: the modelled core never
reads it. -/
structure ChainConfig where
  name : String
  blockTime : ℚ
  defaultRpc : Option String
deriving Repr, DecidableEq

/-- ASCII lowering, modelling `String.prototype.toLowerCase` on the
ASCII chain identifiers the registry uses. -/
def toLowerCase (s : String) : String :=
  String.mk (s.data.map Char.toLower)

/-- The `CHAIN_CONFIGS` table of `src/config/chains.ts`, as a lookup
function keyed by the (already lowercased) chain identifier. -/
def CHAIN_CONFIGS (key : String) : Option ChainConfig :=
  if key = "ethereum" then
    some ⟨"Ethereum", 12, some "https://eth.llamarpc.com"⟩
  else if key = "polygon" then
    some ⟨"Polygon", 2, some "https://polygon-rpc.com"⟩
  else if key = "arbitrum" then
    some ⟨"Arbitrum One", ⟨1, 4, by decide, by decide⟩,
      some "https://arb1.arbitrum.io/rpc"⟩
  else if key = "optimism" then
    some ⟨"Optimism", 2, some "https://mainnet.optimism.io"⟩
  else if key = "base" then
    some ⟨"Base", 2, some "https://mainnet.base.org"⟩
  else if key = "bsc" then
    some ⟨"BNB Smart Chain", 3, some "https://bsc-dataseed.binance.org"⟩
  else if key = "avalanche" then
    some ⟨"Avalanche", 2, some "https://api.avax.network/ext/bc/C/rpc"⟩
  else if key = "fantom" then
    some ⟨"Fantom", 1, some "https://rpc.ftm.tools"⟩
  else if key = "gnosis" then
    some ⟨"Gnosis Chain", 5, some "https://rpc.gnosischain.com"⟩
  else if key = "celo" then
    some ⟨"Celo", 5, some "https://forno.celo.org"⟩
  else if key = "moonbeam" then
    some ⟨"Moonbeam", 12, some "https://rpc.api.moonbeam.network"⟩
  else
    none

/-- Model of `getChainConfig`: registry lookup after lowercasing, exactly as in
`src/config/chains.ts`. -/
def getChainConfig (chain : String) : Option ChainConfig :=
  CHAIN_CONFIGS (toLowerCase chain)

/-- Model of `estimateBlocksForTimeWindow` from `src/config/chains.ts`:
`Math.floor((windowMinutes * 60) / blockTime)`, falling back to the
12-second Ethereum block time when the chain is not in the registry.
The floor of a division by the positive rational `blockTime` is
computed as integer division by `num` after scaling by `den`;
equivalence with `⌊(windowMinutes * 60 : ℚ) / blockTime⌋` is proved
in the theorems below. -/
def estimateBlocksForTimeWindow (chain : String) (windowMinutes : ℕ) : ℤ :=
  match getChainConfig chain with
  | none => ((windowMinutes : ℤ) * 60) / 12
  | some config =>
      ((windowMinutes : ℤ) * 60 * config.blockTime.den) / config.blockTime.num

/-! ## The TTL cache (`src/services/cache.ts`) -/

/-- One `CacheEntry` of `src/services/cache.ts`: stored value (always a
pair list in the modelled core), insertion timestamp, TTL in
milliseconds. -/
structure CacheEntryPairs (α : Type) where
  data : α
  timestamp : ℕ
  ttl : ℕ
deriving Repr, DecidableEq

/-- Lexicographic comparison of character lists, the order JavaScript's
default `Array.prototype.sort` comparator applies to strings (code-unit
comparison; on the ASCII address strings it coincides with `String`'s
`<`, proved below as `ltChars_iff`). -/
def ltChars : List Char → List Char → Bool
  | _, [] => false
  | [], _ :: _ => true
  | a :: as, b :: bs =>
      if a < b then true else if b < a then false else ltChars as bs

/-- Stable ascending insertion: `x` is placed after every element `y`
with `¬ x < y`, so equal elements keep their original order, as
JavaScript's stable sort does. -/
def insertLe (x : String) : List String → List String
  | [] => [x]
  | y :: ys => if ltChars x.data y.data then x :: y :: ys else y :: insertLe x ys

/-- The in-place `factories.sort()` of `Cache.generateKey`, as a pure
stable ascending sort. -/
def jsSortStrings (l : List String) : List String :=
  l.foldl (fun acc x => insertLe x acc) []

namespace Cache

/-- Model of `Cache.generateKey` from `src/services/cache.ts`:
`` `pairs:${chain}:${factories.sort().join(",")}:${fromBlock}:${toBlock}` ``.
`Array.prototype.sort` mutates the caller's array; the mutated array is
returned as the second component so callers can observe the side
effect. -/
def generateKey (chain : String) (factories : List String)
    (fromBlock toBlock : ℤ) : String × List String :=
  let sorted := jsSortStrings factories
  let joined := String.intercalate "," sorted
  (s!"pairs:{chain}:{joined}:{fromBlock}:{toBlock}", sorted)

end Cache

/-- The cache's backing `Map<string, CacheEntry>`, as an association
list (insertion-ordered, like a JavaScript `Map`). -/
def CacheStore (α : Type) := List (String × CacheEntryPairs α)

/-- Model of `Map.get` on the backing store. -/
def storeFind {α : Type} : CacheStore α → String → Option (CacheEntryPairs α)
  | [], _ => none
  | (k, e) :: rest, key => if k = key then some e else storeFind rest key

/-- Model of `Map.set` on the backing store: update in place when the key
exists (insertion position preserved), append otherwise. -/
def storeSet {α : Type} : CacheStore α → String → CacheEntryPairs α → CacheStore α
  | [], key, e => [(key, e)]
  | (k, e0) :: rest, key, e =>
      if k = key then (k, e) :: rest else (k, e0) :: storeSet rest key e

/-- Model of `Map.delete` on the backing store. -/
def storeErase {α : Type} : CacheStore α → String → CacheStore α
  | [], _ => []
  | (k, e0) :: rest, key =>
      if k = key then rest else (k, e0) :: storeErase rest key

/-- Model of `Cache.get` from `src/services/cache.ts`: miss on absent key;
lazily delete and miss when `now - entry.timestamp > entry.ttl`;
otherwise return the stored data.  The possibly-changed store is
returned alongside.  (`now ≥ timestamp` in every use, so `Nat`
subtraction agrees with the JavaScript arithmetic.) -/
def cacheGet {α : Type} (store : CacheStore α) (key : String) (now : ℕ) :
    Option α × CacheStore α :=
  match storeFind store key with
  | none => (none, store)
  | some entry =>
      if entry.ttl < now - entry.timestamp then
        (none, storeErase store key)
      else
        (some entry.data, store)

/-- Model of `Cache.set` from `src/services/cache.ts` (`ttlMs` always supplied
by the modelled caller, so the `DEFAULT_TTL` fallback is not taken). -/
def cacheSet {α : Type} (store : CacheStore α) (key : String) (value : α)
    (ttlMs : ℕ) (now : ℕ) : CacheStore α :=
  storeSet store key ⟨value, now, ttlMs⟩

/-! ## Data model (`src/services/detector.ts`) -/

/-- Record `PairInfo` from `src/services/detector.ts` (V2+V3 variant).
`created_at` keeps the raw block timestamp (seconds); `fee` is stored
as its decimal string, as the code does (`fee.toString()`). -/
structure PairInfo where
  pair_address : String
  tokens : List String
  init_liquidity : Option String := none
  top_holders : Option (List String) := none
  created_at : ℕ
  block_number : ℕ
  transaction_hash : String
  factory : String
  fee : Option String := none
  tick_spacing : Option ℤ := none
  pool_type : Option String := none
deriving Repr, DecidableEq

/-- Record `DetectOptions` from `src/services/detector.ts`. -/
structure DetectOptions where
  chain : String
  factories : List String
  windowMinutes : ℕ
  rpcUrl : Option String := none
deriving Repr, DecidableEq

/-- A raw, already-ABI-decoded `PairCreated` (V2) log.  Decoding by
`decodeEventLog` is modelled as always succeeding; a per-log decode
failure is subsumed by the `getAddress` validation failure path of the
parse functions, which likewise skips the log. -/
structure PairCreatedLog where
  token0 : String
  token1 : String
  pair : String
  blockNumber : ℕ
  transactionHash : String
deriving Repr, DecidableEq

/-- A raw, already-decoded `PoolCreated` (V3) log. -/
structure PoolCreatedLog where
  token0 : String
  token1 : String
  fee : ℕ
  tickSpacing : ℤ
  pool : String
  blockNumber : ℕ
  transactionHash : String
deriving Repr, DecidableEq

/-- A raw, already-decoded V2 `Mint` log (`sender, amount0, amount1`),
listed in block/log order as `eth_getLogs` returns them. -/
structure V2MintLog where
  sender : String
  amount0 : ℕ
  amount1 : ℕ
  blockNumber : ℕ
deriving Repr, DecidableEq

/-- A raw, already-decoded V3 `Mint` log, listed in block/log order. -/
structure V3MintLog where
  sender : String
  owner : String
  tickLower : ℤ
  tickUpper : ℤ
  amount : ℕ
  amount0 : ℕ
  amount1 : ℕ
  blockNumber : ℕ
deriving Repr, DecidableEq

/-- A raw, already-decoded ERC-20 `Transfer` log, in chronological
(block/log) order. -/
structure TransferLog where
  fromAddr : String
  toAddr : String
  value : ℕ
deriving Repr, DecidableEq

/-- The RPC environment of one request: every query the core issues,
as a function from its key.  `none` models a rejected/thrown RPC call
(`Promise.allSettled` branch rejected, or `getLogs` throwing).  Log
lists are in the block/log order the RPC returns.  Each key is queried
over a single block range per request, so the range argument is
suppressed in the key. -/
structure World where
  blockNumber : ℕ
  pairLogsV2 : String → Option (List PairCreatedLog)
  pairLogsV3 : String → Option (List PoolCreatedLog)
  blockTimestamp : ℕ → ℕ
  mintV2 : String → Option (List V2MintLog)
  mintV3 : String → Option (List V3MintLog)
  tokenName : String → Option String
  tokenSymbol : String → Option String
  tokenDecimals : String → Option ℕ
  transferLogs : String → Option (List TransferLog)

/-! ## Liquidity resolution (`src/services/enrichment.ts`, `getPairLiquidity`) -/

/-- Record `LiquidityInfo` from `src/services/enrichment.ts`; the code stores
decimal strings of `bigint`s, modelled by the numbers themselves
(`toString`/`BigInt` round-trips are injective). -/
structure LiquidityInfo where
  reserve0 : ℕ
  reserve1 : ℕ
  totalSupply : ℕ
deriving Repr, DecidableEq

/-- The decision core of `getPairLiquidity`, abstracted over the two
settled `getLogs` results: use the first V2 `Mint` when the V2 query
fulfilled with a non-empty list; else the first V3 `Mint` likewise;
else the zero-liquidity fallback.  A rejected query (`none`) and a
fulfilled empty query (`some []`) fall through identically — this is
exactly the `status === "fulfilled" && length > 0` test of the code.
The `catch` branch of `getPairLiquidity` returns the same zero record,
so RPC failure is indistinguishable from "no mint yet" in the result. -/
def resolveLiquidity (v2 : Option (List V2MintLog))
    (v3 : Option (List V3MintLog)) : LiquidityInfo :=
  match v2 with
  | some (m :: _) => ⟨m.amount0, m.amount1, 0⟩
  | _ =>
    match v3 with
    | some (m :: _) => ⟨m.amount0, m.amount1, 0⟩
    | _ => ⟨0, 0, 0⟩

/-- Model of `getPairLiquidity` of `src/services/enrichment.ts`: validate the
pair address (an invalid address throws inside the `try`, caught into
the zero record with no RPC issued), fire both `Mint` queries over
`[creationBlock, creationBlock+10]` via `Promise.allSettled` (2 RPC
calls), and resolve.  Second component: RPC calls issued. -/
def getPairLiquidity (w : World) (pairAddress : String) : LiquidityInfo × ℕ :=
  match getAddress pairAddress with
  | none => (⟨0, 0, 0⟩, 0)
  | some addr => (resolveLiquidity (w.mintV2 addr) (w.mintV3 addr), 2)

/-! ## Token metadata (`src/services/enrichment.ts`, `getTokenInfo`) -/

/-- Record `TokenInfo` from `src/services/enrichment.ts`. -/
structure TokenInfo where
  address : String
  name : Option String := none
  symbol : Option String := none
  decimals : Option ℕ := none
deriving Repr, DecidableEq

/-- Model of `getTokenInfo`: `getAddress(tokenAddress)` runs *outside* the
`try`, so an invalid token address is a thrown error that escapes to
`enrichPairData`'s `catch` (`Except.error`).  Otherwise three
independent `readContract` calls are settled; each failed field is
simply left unset. -/
def getTokenInfo (w : World) (tokenAddress : String) :
    Except Unit TokenInfo × ℕ :=
  match getAddress tokenAddress with
  | none => (.error (), 0)
  | some addr =>
      (.ok { address := addr, name := w.tokenName addr,
             symbol := w.tokenSymbol addr, decimals := w.tokenDecimals addr }, 3)

/-- The sequential token-metadata loop of `enrichPairData`: stops at
the first token whose `getTokenInfo` throws (propagating the error, as
the thrown exception aborts the loop). -/
def getTokenInfos (w : World) : List String → Except Unit (List TokenInfo) × ℕ
  | [] => (.ok [], 0)
  | t :: ts =>
      match getTokenInfo w t with
      | (.error e, c) => (.error e, c)
      | (.ok info, c) =>
          match getTokenInfos w ts with
          | (.error e, c') => (.error e, c + c')
          | (.ok infos, c') => (.ok (info :: infos), c + c')

/-! ## Holder reconstruction (`src/services/enrichment.ts`, `getTopHolders`) -/

/-- One `Transfer` replay step: a non-zero `from` is debited, a
non-zero `to` is credited; the zero-address side of a mint/burn is
untouched.  A first touch inserts the address at the end of the map
(JavaScript `Map` insertion order); an update keeps its position. -/
def applyTransfer (balances : List (String × ℤ)) (t : TransferLog) :
    List (String × ℤ) :=
  let upsert := fun (bs : List (String × ℤ)) (key : String) (delta : ℤ) =>
    if bs.any (fun e => e.1 = key) then
      bs.map (fun e => if e.1 = key then (e.1, e.2 + delta) else e)
    else
      bs ++ [(key, delta)]
  let afterFrom :=
    if t.fromAddr ≠ ZERO_ADDRESS then
      upsert balances t.fromAddr (-(t.value : ℤ))
    else balances
  if t.toAddr ≠ ZERO_ADDRESS then
    upsert afterFrom t.toAddr (t.value : ℤ)
  else afterFrom

/-- The balance map built by `getTopHolders` from the transfer logs of
the scan window, in chronological order. -/
def replayBalances (logs : List TransferLog) : List (String × ℤ) :=
  logs.foldl applyTransfer []

/-- The stable descending insertion matching the code's comparator
`(a, b) => (b[1] - a[1] > 0 ? 1 : b[1] - a[1] < 0 ? -1 : 0)`:
an element moves ahead only of strictly smaller balances, so equal
balances keep their insertion (first-touch) order. -/
def insertDesc (x : String × ℤ) : List (String × ℤ) → List (String × ℤ)
  | [] => [x]
  | y :: ys => if y.2 < x.2 then x :: y :: ys else y :: insertDesc x ys

/-- Stable descending sort by balance (JavaScript `sort` is stable). -/
def sortDesc (l : List (String × ℤ)) : List (String × ℤ) :=
  l.foldl (fun acc x => insertDesc x acc) []

/-- The pure tail of `getTopHolders`: filter to strictly positive
balances, sort descending, truncate to `limit`, and re-validate each
address through `getAddress` (a failure there throws out to the
`catch`, hence the `Option`). -/
def computeHolders (logs : List TransferLog) (limit : ℕ) :
    Option (List String) :=
  let positive := (replayBalances logs).filter (fun e => 0 < e.2)
  ((sortDesc positive).take limit).mapM (fun e => getAddress e.1)

/-- Model of `getTopHolders` of `src/services/enrichment.ts`: fetch the current
block (1 RPC), then the `Transfer` logs over
`[max(creationBlock, head − 1000), head]` (1 RPC), replay, rank, and
truncate; every error path inside is caught into `[]`. -/
def getTopHolders (w : World) (pairAddress : String) (limit : ℕ) :
    List String × ℕ :=
  match getAddress pairAddress with
  | none => ([], 1)
  | some addr =>
      match w.transferLogs addr with
      | none => ([], 2)
      | some logs => ((computeHolders logs limit).getD [], 2)

/-! ## Liquidity formatting (`src/services/enrichment.ts`, `formatInitialLiquidity`) -/

/-- JavaScript `x || d` on an optional number: `0` is falsy, so a
stored `decimals` of `0` also falls back to the default. -/
def jsOrNat (o : Option ℕ) (d : ℕ) : ℕ :=
  match o with
  | some v => if v = 0 then d else v
  | none => d

/-- JavaScript `s || d` on an optional string: the empty string is
falsy. -/
def jsOrStr (o : Option String) (d : String) : String :=
  match o with
  | some s => if s = "" then d else s
  | none => d

/-- Model of `parseFloat(formatUnits(r, d)).toFixed(2)`: the base-unit amount
`r / 10^d` rendered with exactly two decimals, rounded half-up (exact
over ℚ; IEEE-754 double rounding not modelled — no claim depends on
non-zero digits). -/
def formatFixed2 (r : ℕ) (d : ℕ) : String :=
  let p := 10 ^ d
  let q := (2 * (r * 100) + p) / (2 * p)
  let frac := q % 100
  let fracStr := if frac < 10 then "0" ++ toString frac else toString frac
  toString (q / 100) ++ "." ++ fracStr

/-- Model of `formatInitialLiquidity` of `src/services/enrichment.ts`: the
zero-reserve sentinel check comes first, then per-token decimal/symbol
defaults (`|| 18`, `|| "TOKEN0"`, `|| "TOKEN1"`) and the
`"<amt0> <sym0> / <amt1> <sym1>"` rendering.  Nothing in the modelled
body can throw, so the `"Unknown"` catch branch is unreachable here
(in the source it guards only the `BigInt` conversions, which succeed
on the decimal strings `getPairLiquidity` produces). -/
def formatInitialLiquidity (liquidity : LiquidityInfo)
    (tokenInfos : List TokenInfo) : String :=
  if liquidity.reserve0 = 0 ∧ liquidity.reserve1 = 0 then
    "No liquidity"
  else
    let decimals0 := jsOrNat ((tokenInfos.get? 0).bind TokenInfo.decimals) 18
    let decimals1 := jsOrNat ((tokenInfos.get? 1).bind TokenInfo.decimals) 18
    let symbol0 := jsOrStr ((tokenInfos.get? 0).bind TokenInfo.symbol) "TOKEN0"
    let symbol1 := jsOrStr ((tokenInfos.get? 1).bind TokenInfo.symbol) "TOKEN1"
    let amt0 := formatFixed2 liquidity.reserve0 decimals0
    let amt1 := formatFixed2 liquidity.reserve1 decimals1
    s!"{amt0} {symbol0} / {amt1} {symbol1}"

/-! ## Per-pool enrichment (`src/services/enrichment.ts`, `enrichPairData`) -/

/-- The body of `enrichPairData`'s per-pair `try`: liquidity first,
then the sequential token-metadata loop, then top holders, then the
rendered string.  A thrown token-address error lands in the `catch`,
which keeps the pair with the `"Unable to fetch"` sentinel and an
empty holder list (holders are then never fetched).  On success the
`tokens` field is replaced by the validated addresses.  Second
component: RPC calls issued. -/
def enrichOne (w : World) (pair : PairInfo) : PairInfo × ℕ :=
  let liqc := getPairLiquidity w pair.pair_address
  match getTokenInfos w pair.tokens with
  | (.error _, c2) =>
      ({ pair with init_liquidity := some "Unable to fetch",
                   top_holders := some [] }, liqc.2 + c2)
  | (.ok infos, c2) =>
      let hc := getTopHolders w pair.pair_address 5
      ({ pair with
           init_liquidity := some (formatInitialLiquidity liqc.1 infos),
           top_holders := some hc.1,
           tokens := infos.map TokenInfo.address }, liqc.2 + c2 + hc.2)

/-- Model of `enrichPairData` of `src/services/enrichment.ts`: the sequential
per-pair loop (inter-call delays are timing only and not modelled). -/
def enrichPairData (w : World) : List PairInfo → List PairInfo × ℕ
  | [] => ([], 0)
  | p :: ps =>
      let ec := enrichOne w p
      let rest := enrichPairData w ps
      (ec.1 :: rest.1, ec.2 + rest.2)

/-! ## Detection (`src/services/detector.ts`, V2+V3 variant) -/

/-- Model of `parsePairCreatedLog`: decode (modelled as already done), fetch the
block timestamp, and build the record through `getAddress` on the pair
and both tokens; `none` is the thrown error that the per-log `catch`
turns into skipping the log. -/
def parsePairCreatedLog (w : World) (log : PairCreatedLog)
    (factory : String) : Option PairInfo :=
  match getAddress log.pair, getAddress log.token0, getAddress log.token1 with
  | some pa, some t0, some t1 =>
      some { pair_address := pa, tokens := [t0, t1],
             created_at := w.blockTimestamp log.blockNumber,
             block_number := log.blockNumber,
             transaction_hash := log.transactionHash,
             factory := factory, pool_type := some "v2" }
  | _, _, _ => none

/-- Model of `parsePoolCreatedLog`: the V3 analogue, additionally carrying the
fee tier (as its decimal string, `fee.toString()`) and tick spacing. -/
def parsePoolCreatedLog (w : World) (log : PoolCreatedLog)
    (factory : String) : Option PairInfo :=
  match getAddress log.pool, getAddress log.token0, getAddress log.token1 with
  | some pa, some t0, some t1 =>
      some { pair_address := pa, tokens := [t0, t1],
             created_at := w.blockTimestamp log.blockNumber,
             block_number := log.blockNumber,
             transaction_hash := log.transactionHash,
             factory := factory, fee := some (toString log.fee),
             tick_spacing := some log.tickSpacing, pool_type := some "v3" }
  | _, _, _ => none

/-- One iteration of `detectNewPairs`' factory loop: validate the
factory address (`getAddress` throwing is caught by the per-factory
`catch`, skipping the factory with no RPC issued), settle the V2 and
V3 `getLogs` (2 RPC), and parse the fulfilled lists in order — V2 logs
first, then V3 logs — skipping logs whose parse throws.  Each parsed
log also costs one `getBlock` RPC; second component counts
`getLogs` + `getBlock` calls. -/
def scanFactory (w : World) (fromBlock : ℤ) (factory : String) :
    List PairInfo × ℕ :=
  match getAddress factory with
  | none => ([], 0)
  | some fa =>
      let v2part : List PairInfo × ℕ :=
        match w.pairLogsV2 fa with
        | none => ([], 0)
        | some logs =>
            (logs.filterMap (fun l => parsePairCreatedLog w l fa), logs.length)
      let v3part : List PairInfo × ℕ :=
        match w.pairLogsV3 fa with
        | none => ([], 0)
        | some logs =>
            (logs.filterMap (fun l => parsePoolCreatedLog w l fa), logs.length)
      (v2part.1 ++ v3part.1, 2 + v2part.2 + v3part.2)

/-- The pools one factory contributes to `allPairs` (discovery order:
V2 creations then V3 creations, each in log order). -/
def factoryPools (w : World) (fromBlock : ℤ) (factory : String) :
    List PairInfo :=
  (scanFactory w fromBlock factory).1

/-- The factory loop of `detectNewPairs`: factories processed in
order, results concatenated; a failed factory contributes nothing and
never aborts the loop. -/
def scanFactories (w : World) (fromBlock : ℤ) :
    List String → List PairInfo × ℕ
  | [] => ([], 0)
  | f :: fs =>
      let here := scanFactory w fromBlock f
      let rest := scanFactories w fromBlock fs
      (here.1 ++ rest.1, here.2 + rest.2)

/-- The `seen`-set loop of `deduplicatePairs` in
`src/services/detector.ts`. -/
def dedupGo (seen : List String) : List PairInfo → List PairInfo
  | [] => []
  | p :: ps =>
      if p.pair_address ∈ seen then dedupGo seen ps
      else p :: dedupGo (p.pair_address :: seen) ps

/-- Model of `deduplicatePairs`: keep the first record per `pair_address`, in
first-seen order. -/
def deduplicatePairs (pairs : List PairInfo) : List PairInfo :=
  dedupGo [] pairs

/-- Model of `rpcUrl || chainConfig?.defaultRpc` (JavaScript `||`: the empty
string is falsy), the endpoint resolution at the top of
`detectNewPairs`. -/
def resolveEndpoint (opts : DetectOptions) : Option String :=
  match opts.rpcUrl with
  | some u => if u = "" then (getChainConfig opts.chain).bind ChainConfig.defaultRpc
              else some u
  | none => (getChainConfig opts.chain).bind ChainConfig.defaultRpc

/-- Model of `currentBlock - BigInt(blocksToScan)` for a request. -/
def requestFromBlock (w : World) (chain : String) (windowMinutes : ℕ) : ℤ :=
  (w.blockNumber : ℤ) - estimateBlocksForTimeWindow chain windowMinutes

/-- The cache key `detectNewPairs` computes for a request. -/
def requestKey (w : World) (opts : DetectOptions) : String :=
  (Cache.generateKey opts.chain opts.factories
    (requestFromBlock w opts.chain opts.windowMinutes) (w.blockNumber : ℤ)).1

/-- What one call to `detectNewPairs` produces: the thrown-or-returned
result, the cache store afterwards, the caller's `factories` array
afterwards (mutated by `Cache.generateKey` unless the request aborted
before the key was built), and the number of RPC calls issued. -/
structure DetectResult where
  result : Except String (List PairInfo)
  cacheAfter : CacheStore (List PairInfo)
  factoriesAfter : List String
  rpcCount : ℕ

/-- Model of `detectNewPairs` of `src/services/detector.ts` (V2+V3 variant):
resolve the endpoint (no endpoint → thrown error, nothing mutated);
fetch the current block (1 RPC); compute the block range; build the
cache key — sorting the caller's `factories` in place; return the
cached result on a hit (no further RPC); otherwise scan every factory
in the *sorted* order, deduplicate, enrich, cache for 60 s, and
return. -/
def detectNewPairs (w : World) (cs : CacheStore (List PairInfo)) (now : ℕ)
    (opts : DetectOptions) : DetectResult :=
  match resolveEndpoint opts with
  | none =>
      ⟨.error (s!"No RPC endpoint available for chain: {opts.chain}. Please provide rpc_url parameter."),
       cs, opts.factories, 0⟩
  | some _ =>
      match cacheGet cs (requestKey w opts) now with
      | (some cached, cs') => ⟨.ok cached, cs', jsSortStrings opts.factories, 1⟩
      | (none, cs') =>
          let scanned := scanFactories w
            (requestFromBlock w opts.chain opts.windowMinutes)
            (jsSortStrings opts.factories)
          let enriched := enrichPairData w (deduplicatePairs scanned.1)
          ⟨.ok enriched.1,
           cacheSet cs' (requestKey w opts) enriched.1 (60 * 1000) now,
           jsSortStrings opts.factories, 1 + scanned.2 + enriched.2⟩

/-- The pool addresses of a successful detection result (`[]` for a
thrown one); used to state discovery-order properties. -/
def resultAddrs (r : DetectResult) : List String :=
  match r.result with
  | .ok pairs => pairs.map PairInfo.pair_address
  | .error _ => []

/-! ## Concrete request material for witnesses and counterexamples -/

/-- Demo factory address A (valid `0x` + 40 hex). -/
def addrFA : String := "0xaaaaaaaaaaaaaaaaaaaaaaaaaaaaaaaaaaaaaaaa"

/-- Demo factory address B. -/
def addrFB : String := "0xbbbbbbbbbbbbbbbbbbbbbbbbbbbbbbbbbbbbbbbb"

/-- Demo factory address X, whose log queries fail in the demo world. -/
def addrFX : String := "0xcccccccccccccccccccccccccccccccccccccccc"

/-- Demo pool address discovered from factory A. -/
def addrPA : String := "0x1111111111111111111111111111111111111111"

/-- Demo pool address discovered from factory B. -/
def addrPB : String := "0x2222222222222222222222222222222222222222"

/-- Demo token0 address. -/
def addrT0 : String := "0x3333333333333333333333333333333333333333"

/-- Demo token1 address. -/
def addrT1 : String := "0x4444444444444444444444444444444444444444"

/-- Demo holder address A. -/
def addrHA : String := "0x5555555555555555555555555555555555555555"

/-- Demo holder address B. -/
def addrHB : String := "0x6666666666666666666666666666666666666666"

/-- A demo RPC environment: factory A yields pool `addrPA` (V2
creation), factory B yields pool `addrPB`, factory X's queries are
rejected; pool A has one V2 mint, pool B none; transfer history is
`mint(0 → HA, 100)` then `transfer(HA → HB, 40)`. -/
def demoWorld : World where
  blockNumber := 1000
  pairLogsV2 := fun f =>
    if f = addrFA then some [⟨addrT0, addrT1, addrPA, 990, "0xtxa"⟩]
    else if f = addrFB then some [⟨addrT0, addrT1, addrPB, 991, "0xtxb"⟩]
    else none
  pairLogsV3 := fun f =>
    if f = addrFA || f = addrFB then some [] else none
  blockTimestamp := fun n => n * 10
  mintV2 := fun p => if p = addrPA then some [⟨addrHA, 500, 600, 990⟩] else some []
  mintV3 := fun _ => some []
  tokenName := fun _ => some "Demo"
  tokenSymbol := fun t => if t = addrT0 then some "TK0" else some "TK1"
  tokenDecimals := fun _ => some 2
  transferLogs := fun _ =>
    some [⟨ZERO_ADDRESS, addrHA, 100⟩, ⟨addrHA, addrHB, 40⟩]

/-- The demo request: chain `base`, factories supplied in *unsorted*
order `[B, A]`, a one-minute window, an explicit RPC URL. -/
def demoOpts : DetectOptions :=
  { chain := "base", factories := [addrFB, addrFA],
    windowMinutes := 1, rpcUrl := some "http://rpc.example" }

/-- The transfer sequence of the holder-reconstruction test:
`mint(0 → HA, 100)` then `transfer(HA → HB, 40)`. -/
def demoTransfers : List TransferLog :=
  [⟨ZERO_ADDRESS, addrHA, 100⟩, ⟨addrHA, addrHB, 40⟩]

/-- A world in which both mint-log queries are rejected by the RPC for
every pool (and everything else behaves as in `demoWorld`). -/
def rpcFailWorld : World :=
  { demoWorld with mintV2 := fun _ => none, mintV3 := fun _ => none }

/-- The pool record whose enrichment exercises the mint-log RPC
failure. -/
def pairDemo : PairInfo :=
  { pair_address := addrPA, tokens := [addrT0, addrT1], created_at := 9900,
    block_number := 990, transaction_hash := "0xtxa", factory := addrFA,
    pool_type := some "v2" }

/-- The empty cache a fresh process starts with. -/
def emptyCache : CacheStore (List PairInfo) := []

/-! ## Supporting lemmas -/

set_option maxHeartbeats 1600000 in
/-- Every block time in the registry is positive. -/
lemma blockTime_pos (key : String) (c : ChainConfig)
    (h : CHAIN_CONFIGS key = some c) : 0 < c.blockTime := by
  unfold CHAIN_CONFIGS at h
  split_ifs at h <;> injection h with h <;> subst h <;>
    exact Rat.num_pos.mp (by decide)

/-- Integer division by the numerator after scaling by the denominator
computes the floor of division by a positive rational. -/
lemma intDiv_eq_floor_div_rat (n : ℕ) (q : ℚ) (hq : 0 < q) :
    ((n : ℤ) * q.den) / q.num = ⌊(n : ℚ) / q⌋ := by
  have hnum : 0 < q.num := Rat.num_pos.mpr hq
  have hcast : ((q.num.toNat : ℕ) : ℚ) = (q.num : ℚ) := by
    exact_mod_cast congrArg (Int.cast : ℤ → ℚ) (Int.toNat_of_nonneg hnum.le)
  have key : (n : ℚ) / q = (((n : ℤ) * q.den : ℤ) : ℚ) / ((q.num.toNat : ℕ) : ℚ) := by
    conv_lhs => rw [← Rat.num_div_den q, div_div_eq_mul_div]
    rw [hcast]
    push_cast
    ring
  rw [key, Rat.floor_intCast_div_natCast]
  congr 1
  exact (Int.toNat_of_nonneg hnum.le).symm

/-- Helper: `dedupGo` only ever drops elements: its output is a sublist of its
input, so surviving records keep their relative order. -/
lemma dedupGo_sublist : ∀ (l : List PairInfo) (seen : List String),
    (dedupGo seen l).Sublist l
  | [], _ => by simp [dedupGo]
  | x :: xs, seen => by
      by_cases hx : x.pair_address ∈ seen
      · simp only [dedupGo, if_pos hx]
        exact (dedupGo_sublist xs seen).cons x
      · simp only [dedupGo, if_neg hx]
        exact (dedupGo_sublist xs (x.pair_address :: seen)).cons₂ x

/-- The addresses surviving `dedupGo` are pairwise distinct and
disjoint from the `seen` set. -/
lemma dedupGo_nodup : ∀ (l : List PairInfo) (seen : List String),
    ((dedupGo seen l).map PairInfo.pair_address).Nodup ∧
      ∀ a ∈ (dedupGo seen l).map PairInfo.pair_address, a ∉ seen
  | [], seen => by simp [dedupGo]
  | x :: xs, seen => by
      by_cases hx : x.pair_address ∈ seen
      · simpa only [dedupGo, if_pos hx] using dedupGo_nodup xs seen
      · have IH := dedupGo_nodup xs (x.pair_address :: seen)
        simp only [dedupGo, if_neg hx, List.map_cons, List.nodup_cons]
        refine ⟨⟨fun hmem => ?_, IH.1⟩, fun a ha => ?_⟩
        · exact (IH.2 _ hmem) (List.mem_cons_self _ _)
        · rcases List.mem_cons.mp ha with rfl | ha'
          · exact hx
          · exact fun hs => (IH.2 a ha') (List.mem_cons_of_mem _ hs)

/-- Membership characterisation of `dedupGo`: a record survives
exactly when it sits at a position whose address is fresh with respect
to both the `seen` set and every earlier position. -/
lemma mem_dedupGo : ∀ (l : List PairInfo) (seen : List String) (p : PairInfo),
    p ∈ dedupGo seen l ↔
      ∃ i, ∃ h : i < l.length, l.get ⟨i, h⟩ = p ∧ p.pair_address ∉ seen ∧
        p.pair_address ∉ (l.take i).map PairInfo.pair_address
  | [], seen, p => by simp [dedupGo]
  | x :: xs, seen, p => by
      by_cases hx : x.pair_address ∈ seen
      · simp only [dedupGo, if_pos hx]
        rw [mem_dedupGo xs seen p]
        constructor
        · rintro ⟨k, hk, hget, hseen, htake⟩
          refine ⟨k + 1, Nat.succ_lt_succ hk, hget, hseen, ?_⟩
          simp only [List.take_succ_cons, List.map_cons, List.mem_cons, not_or]
          exact ⟨fun hEq => hseen (hEq ▸ hx), htake⟩
        · rintro ⟨i, hi, hget, hseen, htake⟩
          cases i with
          | zero =>
              exact absurd (hget ▸ hx) hseen
          | succ k =>
              simp only [List.take_succ_cons, List.map_cons, List.mem_cons,
                not_or] at htake
              exact ⟨k, Nat.lt_of_succ_lt_succ hi, hget, hseen, htake.2⟩
      · simp only [dedupGo, if_neg hx, List.mem_cons]
        rw [mem_dedupGo xs (x.pair_address :: seen) p]
        constructor
        · rintro (rfl | ⟨k, hk, hget, hseen, htake⟩)
          · exact ⟨0, Nat.succ_pos _, rfl, hx, by simp⟩
          · simp only [List.mem_cons, not_or] at hseen
            refine ⟨k + 1, Nat.succ_lt_succ hk, hget, hseen.2, ?_⟩
            simp only [List.take_succ_cons, List.map_cons, List.mem_cons, not_or]
            exact ⟨hseen.1, htake⟩
        · rintro ⟨i, hi, hget, hseen, htake⟩
          cases i with
          | zero => exact Or.inl hget.symm
          | succ k =>
              simp only [List.take_succ_cons, List.map_cons, List.mem_cons,
                not_or] at htake
              refine Or.inr ⟨k, Nat.lt_of_succ_lt_succ hi, hget, ?_, htake.2⟩
              simp only [List.mem_cons, not_or]
              exact ⟨htake.1, hseen⟩

/-- C3: deduplication returns exactly the records whose pool address
has not occurred earlier in the list (first occurrence wins), every
pool address is unique in the output, and survivors keep their
first-seen relative order (the output is a sublist of the input). -/
theorem claim3_dedup (l : List PairInfo) :
    (deduplicatePairs l).Sublist l ∧
    ((deduplicatePairs l).map PairInfo.pair_address).Nodup ∧
    ∀ p : PairInfo, p ∈ deduplicatePairs l ↔
      ∃ i, ∃ h : i < l.length, l.get ⟨i, h⟩ = p ∧
        p.pair_address ∉ (l.take i).map PairInfo.pair_address := by
  refine ⟨dedupGo_sublist l [], (dedupGo_nodup l []).1, fun p => ?_⟩
  rw [show deduplicatePairs l = dedupGo [] l from rfl, mem_dedupGo l [] p]
  simp

/-- C4: for every chain identifier and window length, the block-range
estimator returns `⌊windowMinutes * 60 / blockTime⌋` with `blockTime`
the registry's block time for the chain, falling back to the 12-second
Ethereum block time (instead of failing) when the chain is absent. -/
theorem estimateBlocksForTimeWindow_eq_floor (chain : String) (windowMinutes : ℕ) :
    estimateBlocksForTimeWindow chain windowMinutes =
      ⌊((windowMinutes : ℚ) * 60) /
        (Option.getD (Option.map ChainConfig.blockTime (getChainConfig chain)) 12)⌋ := by
  have hc : ((windowMinutes * 60 : ℕ) : ℚ) = (windowMinutes : ℚ) * 60 := by
    push_cast
    ring
  have hz : ((windowMinutes * 60 : ℕ) : ℤ) = (windowMinutes : ℤ) * 60 := by
    push_cast
    ring
  unfold estimateBlocksForTimeWindow
  cases h : getChainConfig chain with
  | none =>
      simp only [h, Option.map_none', Option.getD_none]
      rw [← hc, ← intDiv_eq_floor_div_rat (windowMinutes * 60) 12 (by norm_num), hz]
      norm_num
  | some config =>
      have hpos : 0 < config.blockTime := blockTime_pos _ _ h
      simp only [h, Option.map_some', Option.getD_some]
      rw [← hc, ← intDiv_eq_floor_div_rat (windowMinutes * 60) config.blockTime hpos, hz]

/-- C5: when the scan window holds both a V2-shaped and a V3-shaped
mint, the first V2 mint's `amount0`/`amount1` are used, and the result
does not depend on the V3 query's outcome at all. -/
theorem resolveLiquidity_prefers_v2 :
    ∀ (m : V2MintLog) (rest : List V2MintLog) (m3 : V3MintLog)
      (rest3 : List V3MintLog),
      resolveLiquidity (some (m :: rest)) (some (m3 :: rest3)) =
        ⟨m.amount0, m.amount1, 0⟩ ∧
      ∀ v3 v3' : Option (List V3MintLog),
        resolveLiquidity (some (m :: rest)) v3 =
          resolveLiquidity (some (m :: rest)) v3' :=
  fun _ _ _ _ => ⟨rfl, fun _ _ => rfl⟩

/-- C6: only the first mint log of the matching shape (the head of the
block/log-ordered list) determines the resolved amounts; any later
mints of the same shape are ignored, in both the V2 path and the V3
fallback path (whether the V2 query failed or returned no logs). -/
theorem resolveLiquidity_first_mint_only :
    (∀ (m : V2MintLog) (rest : List V2MintLog) (v3 : Option (List V3MintLog)),
      resolveLiquidity (some (m :: rest)) v3 = ⟨m.amount0, m.amount1, 0⟩ ∧
      resolveLiquidity (some (m :: rest)) v3 = resolveLiquidity (some [m]) v3) ∧
    (∀ (m3 : V3MintLog) (rest3 : List V3MintLog),
      resolveLiquidity none (some (m3 :: rest3)) = ⟨m3.amount0, m3.amount1, 0⟩ ∧
      resolveLiquidity none (some (m3 :: rest3)) =
        resolveLiquidity none (some [m3]) ∧
      resolveLiquidity (some []) (some (m3 :: rest3)) =
        ⟨m3.amount0, m3.amount1, 0⟩ ∧
      resolveLiquidity (some []) (some (m3 :: rest3)) =
        resolveLiquidity (some []) (some [m3])) :=
  ⟨fun _ _ _ => ⟨rfl, rfl⟩, fun _ _ => ⟨rfl, rfl, rfl, rfl⟩⟩

/-- C7: replaying `mint(0 → A, 100)`, `transfer(A → B, 40)` yields
balances `A = 60`, `B = 40` (a mint only credits the receiver, a plain
transfer debits the sender and credits the receiver), and the ranked
output lists `[A, B]`, A first because its balance is higher — both
through the pure replay and through `getTopHolders` on a world serving
exactly these logs. -/
theorem holders_replay_demo :
    replayBalances demoTransfers = [(addrHA, 60), (addrHB, 40)] ∧
    computeHolders demoTransfers 5 = some [addrHA, addrHB] ∧
    getTopHolders demoWorld addrPA 5 = ([addrHA, addrHB], 2) := by
  exact ⟨by decide, by decide, by decide⟩

/-- C1 counterexample: with both mint-log queries rejected (an RPC
failure during liquidity resolution), the enriched record's
`init_liquidity` is `"No liquidity"` — the very string of the
"no liquidity yet" outcome — and not `"Unable to fetch"`; indeed the
resolver returns the identical zero record for a failed query and for
a successful query that found no mint. -/
theorem liquidity_rpc_failure_counterexample :
    (enrichOne rpcFailWorld pairDemo).1.init_liquidity = some "No liquidity" ∧
    (enrichOne rpcFailWorld pairDemo).1.init_liquidity ≠ some "Unable to fetch" ∧
    resolveLiquidity none none = resolveLiquidity (some []) (some []) := by
  exact ⟨by decide, by decide, rfl⟩

/-- C1 amended: an RPC failure while fetching mint logs yields the
same zero-liquidity record as a successful scan that found no mint
event — both render `init_liquidity = "No liquidity"`; the
`"Unable to fetch"` sentinel is produced only by the per-pair
enrichment `catch`, not by the mint-log path.  And whenever the
resolved amounts are `reserve0 = 0` and `reserve1 = 0`, the rendered
string is exactly `"No liquidity"`. -/
theorem liquidity_rpc_failure_amended :
    resolveLiquidity none none = ⟨0, 0, 0⟩ ∧
    resolveLiquidity (some []) (some []) = ⟨0, 0, 0⟩ ∧
    (∀ (liq : LiquidityInfo) (toks : List TokenInfo),
      liq.reserve0 = 0 → liq.reserve1 = 0 →
        formatInitialLiquidity liq toks = "No liquidity") := by
  refine ⟨rfl, rfl, fun liq toks h0 h1 => ?_⟩
  unfold formatInitialLiquidity
  rw [if_pos ⟨h0, h1⟩]

/-- Closed instance of `liquidity_rpc_failure_amended`'s formatting
clause at the zero record. -/
theorem liquidity_rpc_failure_amended_witness :
    formatInitialLiquidity ⟨0, 0, 0⟩ [] = "No liquidity" :=
  liquidity_rpc_failure_amended.2.2 ⟨0, 0, 0⟩ [] rfl rfl

/-- Helper: `ltChars` decides Mathlib's lexicographic order on character
lists. -/
lemma ltChars_iff : ∀ (as bs : List Char), ltChars as bs = true ↔ as < bs
  | as, [] => by
      constructor
      · intro h
        cases as <;> simp [ltChars] at h
      · intro h
        cases h
  | [], b :: bs => by
      constructor
      · intro _
        exact List.Lex.nil
      · intro _
        rfl
  | a :: as, b :: bs => by
      by_cases hab : a < b
      · constructor
        · intro _
          exact List.Lex.rel hab
        · intro _
          simp [ltChars, hab]
      · by_cases hba : b < a
        · constructor
          · intro h
            rw [ltChars] at h
            simp [hab, hba] at h
          · intro h
            cases h with
            | rel h => exact absurd h hab
            | cons h => exact absurd hba (lt_irrefl _)
        · have heq : a = b := le_antisymm (le_of_not_lt hba) (le_of_not_lt hab)
          subst heq
          rw [show ltChars (a :: as) (a :: bs) = ltChars as bs by
            simp [ltChars, lt_irrefl]]
          rw [ltChars_iff as bs]
          constructor
          · exact fun h => List.Lex.cons h
          · intro h
            cases h with
            | rel h => exact absurd h (lt_irrefl _)
            | cons h => exact h

/-- Helper: `ltChars` on the underlying characters decides `String`'s `<`. -/
lemma ltChars_lt_iff (x y : String) : ltChars x.data y.data = true ↔ x < y := by
  rw [String.lt_iff_toList_lt]
  exact ltChars_iff x.data y.data

/-- Inserting permutes: `insertLe x l` is `x :: l` up to order. -/
lemma insertLe_perm (x : String) :
    ∀ l : List String, List.Perm (insertLe x l) (x :: l)
  | [] => List.Perm.refl _
  | y :: ys => by
      by_cases h : ltChars x.data y.data
      · simp [insertLe, h]
      · simp only [insertLe, if_neg h]
        exact ((insertLe_perm x ys).cons y).trans (List.Perm.swap x y ys)

/-- Inserting preserves sortedness. -/
lemma insertLe_sorted (x : String) :
    ∀ l : List String, l.Sorted (· ≤ ·) → (insertLe x l).Sorted (· ≤ ·)
  | [] => fun _ => by simp [insertLe]
  | y :: ys => fun h => by
      rw [List.sorted_cons] at h
      by_cases hlt : ltChars x.data y.data
      · rw [insertLe, if_pos hlt, List.sorted_cons]
        have hxy : x < y := (ltChars_lt_iff x y).mp hlt
        refine ⟨fun b hb => ?_, List.sorted_cons.mpr h⟩
        rcases List.mem_cons.mp hb with rfl | hb'
        · exact le_of_lt hxy
        · exact le_trans (le_of_lt hxy) (h.1 b hb')
      · rw [insertLe, if_neg hlt, List.sorted_cons]
        have hyx : y ≤ x := le_of_not_lt fun hc =>
          hlt ((ltChars_lt_iff x y).mpr hc)
        refine ⟨fun b hb => ?_, insertLe_sorted x ys h.2⟩
        rcases List.mem_cons.mp ((insertLe_perm x ys).mem_iff.mp hb) with rfl | hb'
        · exact hyx
        · exact h.1 b hb'

/-- The insertion fold permutes its input onto the accumulator. -/
lemma foldl_insertLe_perm :
    ∀ (l acc : List String),
      List.Perm (l.foldl (fun acc x => insertLe x acc) acc) (l ++ acc)
  | [], acc => by simp
  | x :: xs, acc => by
      simp only [List.foldl_cons, List.cons_append]
      exact (foldl_insertLe_perm xs (insertLe x acc)).trans
        (((insertLe_perm x acc).append_left xs).trans List.perm_middle)

/-- The insertion fold keeps the accumulator sorted. -/
lemma foldl_insertLe_sorted :
    ∀ (l acc : List String), acc.Sorted (· ≤ ·) →
      (l.foldl (fun acc x => insertLe x acc) acc).Sorted (· ≤ ·)
  | [], _ => fun h => h
  | x :: xs, acc => fun h => by
      simp only [List.foldl_cons]
      exact foldl_insertLe_sorted xs (insertLe x acc) (insertLe_sorted x acc h)

/-- Helper: `jsSortStrings` permutes its input. -/
lemma jsSortStrings_perm (l : List String) : List.Perm (jsSortStrings l) l := by
  simpa using foldl_insertLe_perm l []

/-- Helper: `jsSortStrings` sorts ascending by `String`'s order. -/
lemma jsSortStrings_sorted (l : List String) :
    (jsSortStrings l).Sorted (· ≤ ·) :=
  foldl_insertLe_sorted l [] (by simp)

/-- C9: for every chain id, block range and pair of factory lists
that are permutations of each other, `Cache.generateKey` produces the
same key string (the factories are sorted before joining). -/
theorem generateKey_perm_invariant (chain : String) (l1 l2 : List String)
    (fromBlock toBlock : ℤ) (h : List.Perm l1 l2) :
    (Cache.generateKey chain l1 fromBlock toBlock).1 =
      (Cache.generateKey chain l2 fromBlock toBlock).1 := by
  have hs : jsSortStrings l1 = jsSortStrings l2 :=
    List.eq_of_perm_of_sorted
      ((jsSortStrings_perm l1).trans (h.trans (jsSortStrings_perm l2).symm))
      (jsSortStrings_sorted l1) (jsSortStrings_sorted l2)
  simp [Cache.generateKey, hs]

/-- Closed instance of `generateKey_perm_invariant` at
`[B, A]` versus `[A, B]`. -/
theorem generateKey_perm_invariant_witness :
    (Cache.generateKey "base" [addrFB, addrFA] 970 1000).1 =
      (Cache.generateKey "base" [addrFA, addrFB] 970 1000).1 :=
  generateKey_perm_invariant "base" [addrFB, addrFA] [addrFA, addrFB]
    970 1000 (List.Perm.swap addrFA addrFB [])

/-- With an explicit non-empty `rpcUrl`, endpoint resolution returns
it unchanged. -/
lemma resolveEndpoint_some (chain : String) (fs : List String) (wm : ℕ)
    (u : String) (hu : u ≠ "") :
    resolveEndpoint ⟨chain, fs, wm, some u⟩ = some u := by
  simp [resolveEndpoint, hu]

/-- On a cache hit, `detectNewPairs` returns the cached value after a
single RPC call (the current-block fetch). -/
lemma detectNewPairs_hit (w : World) (cs : CacheStore (List PairInfo))
    (now : ℕ) (opts : DetectOptions) (u : String) (v : List PairInfo)
    (cs' : CacheStore (List PairInfo))
    (hend : resolveEndpoint opts = some u)
    (hhit : cacheGet cs (requestKey w opts) now = (some v, cs')) :
    detectNewPairs w cs now opts =
      ⟨.ok v, cs', jsSortStrings opts.factories, 1⟩ := by
  unfold detectNewPairs
  rw [hend, hhit]

/-- On a cache miss, `detectNewPairs` scans (in sorted factory order),
deduplicates, enriches, and writes the cache. -/
lemma detectNewPairs_miss (w : World) (cs : CacheStore (List PairInfo))
    (now : ℕ) (opts : DetectOptions) (u : String)
    (cs' : CacheStore (List PairInfo))
    (hend : resolveEndpoint opts = some u)
    (hmiss : cacheGet cs (requestKey w opts) now = (none, cs')) :
    detectNewPairs w cs now opts =
      ⟨.ok (enrichPairData w (deduplicatePairs
          (scanFactories w (requestFromBlock w opts.chain opts.windowMinutes)
            (jsSortStrings opts.factories)).1)).1,
       cacheSet cs' (requestKey w opts)
         (enrichPairData w (deduplicatePairs
           (scanFactories w (requestFromBlock w opts.chain opts.windowMinutes)
             (jsSortStrings opts.factories)).1)).1 (60 * 1000) now,
       jsSortStrings opts.factories,
       1 + (scanFactories w (requestFromBlock w opts.chain opts.windowMinutes)
              (jsSortStrings opts.factories)).2 +
         (enrichPairData w (deduplicatePairs
           (scanFactories w (requestFromBlock w opts.chain opts.windowMinutes)
             (jsSortStrings opts.factories)).1)).2⟩ := by
  unfold detectNewPairs
  rw [hend, hmiss]

/-- Helper: `Map.get` straight after `Map.set` finds the freshly set entry. -/
lemma storeFind_storeSet {α : Type} :
    ∀ (s : CacheStore α) (k : String) (e : CacheEntryPairs α),
      storeFind (storeSet s k e) k = some e
  | [], k, e => by simp [storeSet, storeFind]
  | (k0, e0) :: rest, k, e => by
      by_cases h : k0 = k
      · simp [storeSet, storeFind, h]
      · simp only [storeSet, if_neg h, storeFind, if_neg h]
        exact storeFind_storeSet rest k e

/-- Reading a just-written entry within its TTL is a hit that leaves
the store untouched. -/
lemma cacheGet_cacheSet_fresh {α : Type} (s : CacheStore α) (k : String)
    (v : α) (ttlMs t1 t2 : ℕ) (h : t2 - t1 ≤ ttlMs) :
    cacheGet (cacheSet s k v ttlMs t1) k t2 =
      (some v, cacheSet s k v ttlMs t1) := by
  unfold cacheGet cacheSet
  rw [storeFind_storeSet]
  simp [Nat.not_lt.mpr h]

/-- C2 counterexample: on the concrete demo request repeated within
the TTL, the second call returns the identical result but issues one
RPC query (the current-block fetch precedes the cache lookup), not
zero. -/
theorem second_request_rpc_counterexample :
    (detectNewPairs demoWorld
        (detectNewPairs demoWorld emptyCache 0 demoOpts).cacheAfter
        50000 demoOpts).result =
      (detectNewPairs demoWorld emptyCache 0 demoOpts).result ∧
    (detectNewPairs demoWorld
        (detectNewPairs demoWorld emptyCache 0 demoOpts).cacheAfter
        50000 demoOpts).rpcCount ≠ 0 :=
  ⟨rfl, by decide⟩

/-- C2 amended: for every world, chain, factory set and window, if the
first request misses the cache and the second identical request runs
within 60 s (with the chain head unchanged, as encoded by sharing the
world), the second request returns the identical result and issues
exactly one RPC query — the current-block fetch — with zero log or
contract queries. -/
theorem cached_second_request (w : World) (cs : CacheStore (List PairInfo))
    (t1 t2 : ℕ) (chain : String) (fs : List String) (wm : ℕ) (u : String)
    (hu : u ≠ "")
    (hmiss : (cacheGet cs (requestKey w ⟨chain, fs, wm, some u⟩) t1).1 = none)
    (httl : t2 - t1 ≤ 60 * 1000) :
    (detectNewPairs w (detectNewPairs w cs t1 ⟨chain, fs, wm, some u⟩).cacheAfter
        t2 ⟨chain, fs, wm, some u⟩).result =
      (detectNewPairs w cs t1 ⟨chain, fs, wm, some u⟩).result ∧
    (detectNewPairs w (detectNewPairs w cs t1 ⟨chain, fs, wm, some u⟩).cacheAfter
        t2 ⟨chain, fs, wm, some u⟩).rpcCount = 1 := by
  have hend := resolveEndpoint_some chain fs wm u hu
  rcases hget : cacheGet cs (requestKey w ⟨chain, fs, wm, some u⟩) t1 with ⟨o, cs2⟩
  rw [hget] at hmiss
  simp only at hmiss
  subst hmiss
  rw [detectNewPairs_miss w cs t1 _ u cs2 hend hget]
  dsimp only
  rw [detectNewPairs_hit w _ t2 _ u _ _ hend
    (cacheGet_cacheSet_fresh cs2 (requestKey w ⟨chain, fs, wm, some u⟩) _
      (60 * 1000) t1 t2 httl)]
  exact ⟨rfl, rfl⟩

/-- Closed instance of `cached_second_request` on the demo request. -/
theorem cached_second_request_witness :
    (detectNewPairs demoWorld
        (detectNewPairs demoWorld emptyCache 0 demoOpts).cacheAfter
        50000 demoOpts).result =
      (detectNewPairs demoWorld emptyCache 0 demoOpts).result ∧
    (detectNewPairs demoWorld
        (detectNewPairs demoWorld emptyCache 0 demoOpts).cacheAfter
        50000 demoOpts).rpcCount = 1 :=
  cached_second_request demoWorld emptyCache 0 50000 "base" [addrFB, addrFA] 1
    "http://rpc.example" (by decide) (by decide) (by decide)

/-- Per-pair enrichment never changes the pool address (both the
success and the catch branch keep the original record's fields). -/
lemma enrichOne_pair_address (w : World) (p : PairInfo) :
    (enrichOne w p).1.pair_address = p.pair_address := by
  unfold enrichOne
  rcases getTokenInfos w p.tokens with ⟨r, c⟩
  cases r <;> rfl

/-- Helper: `enrichPairData` preserves the pool-address sequence. -/
lemma enrichPairData_map_addr (w : World) :
    ∀ l : List PairInfo,
      (enrichPairData w l).1.map PairInfo.pair_address =
        l.map PairInfo.pair_address
  | [] => rfl
  | p :: ps => by
      simp only [enrichPairData, List.map_cons]
      rw [enrichOne_pair_address, enrichPairData_map_addr w ps]

/-- An address survives `dedupGo` exactly when it occurs in the input
and is not already `seen`. -/
lemma mem_addr_dedupGo : ∀ (l : List PairInfo) (seen : List String) (a : String),
    a ∈ (dedupGo seen l).map PairInfo.pair_address ↔
      (a ∈ l.map PairInfo.pair_address ∧ a ∉ seen)
  | [], seen, a => by simp [dedupGo]
  | x :: xs, seen, a => by
      by_cases hx : x.pair_address ∈ seen
      · rw [show dedupGo seen (x :: xs) = dedupGo seen xs by
          simp [dedupGo, hx]]
        rw [mem_addr_dedupGo xs seen a]
        simp only [List.map_cons, List.mem_cons]
        constructor
        · rintro ⟨hmem, hns⟩
          exact ⟨Or.inr hmem, hns⟩
        · rintro ⟨hor, hns⟩
          rcases hor with rfl | hmem
          · exact absurd hx hns
          · exact ⟨hmem, hns⟩
      · simp only [dedupGo, if_neg hx, List.map_cons, List.mem_cons]
        rw [mem_addr_dedupGo xs (x.pair_address :: seen) a]
        constructor
        · rintro (rfl | ⟨hmem, hns⟩)
          · exact ⟨Or.inl rfl, hx⟩
          · simp only [List.mem_cons, not_or] at hns
            exact ⟨Or.inr hmem, hns.2⟩
        · rintro ⟨hor, hns⟩
          rcases hor with rfl | hmem
          · exact Or.inl rfl
          · by_cases hax : a = x.pair_address
            · exact Or.inl hax
            · refine Or.inr ⟨hmem, ?_⟩
              simp only [List.mem_cons, not_or]
              exact ⟨hax, hns⟩

/-- Deduplication never loses an address, only repeats. -/
lemma mem_addr_dedup (l : List PairInfo) (a : String) :
    a ∈ (deduplicatePairs l).map PairInfo.pair_address ↔
      a ∈ l.map PairInfo.pair_address := by
  rw [show deduplicatePairs l = dedupGo [] l from rfl, mem_addr_dedupGo]
  simp

/-- A pool contributed by any factory of the scanned list appears in
the concatenated scan output. -/
lemma mem_scanFactories (w : World) (fb : ℤ) :
    ∀ (fs : List String) (f : String) (p : PairInfo),
      f ∈ fs → p ∈ factoryPools w fb f → p ∈ (scanFactories w fb fs).1
  | [], f, _ => fun h _ => absurd h (List.not_mem_nil f)
  | g :: gs, f, p => fun hf hp => by
      simp only [scanFactories]
      rcases List.mem_cons.mp hf with rfl | hf'
      · exact List.mem_append_left _ hp
      · exact List.mem_append_right _ (mem_scanFactories w fb gs f p hf' hp)

/-- C8: if factory X's log queries throw, the scan continues, and any
pool discovered from another factory Y of the same request is still
present (by pool address) in the final output; a single factory
failure never empties or aborts the result. -/
theorem factory_failure_isolated (w : World) (cs : CacheStore (List PairInfo))
    (now : ℕ) (chain : String) (fs : List String) (wm : ℕ) (u : String)
    (X Y : String) (p : PairInfo)
    (hu : u ≠ "")
    (hmiss : (cacheGet cs (requestKey w ⟨chain, fs, wm, some u⟩) now).1 = none)
    (_hX : X ∈ fs)
    (_hXfail2 : w.pairLogsV2 X = none) (_hXfail3 : w.pairLogsV3 X = none)
    (hY : Y ∈ fs)
    (hp : p ∈ factoryPools w (requestFromBlock w chain wm) Y) :
    ∃ out, (detectNewPairs w cs now ⟨chain, fs, wm, some u⟩).result = .ok out ∧
      p.pair_address ∈ out.map PairInfo.pair_address := by
  have hend := resolveEndpoint_some chain fs wm u hu
  rcases hget : cacheGet cs (requestKey w ⟨chain, fs, wm, some u⟩) now with ⟨o, cs2⟩
  rw [hget] at hmiss
  simp only at hmiss
  subst hmiss
  rw [detectNewPairs_miss w cs now _ u cs2 hend hget]
  refine ⟨_, rfl, ?_⟩
  rw [enrichPairData_map_addr, mem_addr_dedup]
  exact List.mem_map_of_mem _ (mem_scanFactories w _ (jsSortStrings fs) Y p
    ((jsSortStrings_perm fs).mem_iff.mpr hY) hp)

/-- Closed instance of `factory_failure_isolated`: factory `addrFX`
fails in `demoWorld`, yet the pool discovered from `addrFA` is in the
output. -/
theorem factory_failure_isolated_witness :
    ∃ out, (detectNewPairs demoWorld emptyCache 0
        ⟨"base", [addrFX, addrFA], 1, some "http://rpc.example"⟩).result =
          .ok out ∧
      pairDemo.pair_address ∈ out.map PairInfo.pair_address :=
  factory_failure_isolated demoWorld emptyCache 0 "base" [addrFX, addrFA] 1
    "http://rpc.example" addrFX addrFA pairDemo (by decide) (by decide)
    (by decide) (by decide) (by decide) (by decide) (by decide)

/-- C10: `Cache.generateKey` sorts the caller's `factories` array in
place (modelled: the mutated array it hands back is the sorted one),
`detectNewPairs` therefore iterates the factories — and discovers
pools — in lexicographically sorted order rather than caller order,
and the caller's array is left permuted: on the demo request with
factories `[B, A]`, the caller-order scan would discover
`[poolB, poolA]`, but the actual output order is `[poolA, poolB]`. -/
theorem generateKey_sorts_in_place :
    (∀ (chain : String) (fs : List String) (fb tb : ℤ),
      (Cache.generateKey chain fs fb tb).2 = jsSortStrings fs) ∧
    (∀ (w : World) (cs : CacheStore (List PairInfo)) (now : ℕ)
      (chain : String) (fs : List String) (wm : ℕ) (u : String), u ≠ "" →
      (detectNewPairs w cs now ⟨chain, fs, wm, some u⟩).factoriesAfter =
        jsSortStrings fs) ∧
    demoOpts.factories = [addrFB, addrFA] ∧
    jsSortStrings [addrFB, addrFA] = [addrFA, addrFB] ∧
    (scanFactories demoWorld (requestFromBlock demoWorld "base" 1)
      [addrFB, addrFA]).1.map PairInfo.pair_address = [addrPB, addrPA] ∧
    resultAddrs (detectNewPairs demoWorld emptyCache 0 demoOpts) =
      [addrPA, addrPB] ∧
    addrPA ≠ addrPB := by
  refine ⟨fun chain fs fb tb => rfl, ?_, by decide, by decide, by decide,
    by decide, by decide⟩
  intro w cs now chain fs wm u hu
  have hend := resolveEndpoint_some chain fs wm u hu
  unfold detectNewPairs
  rw [hend]
  rcases h : cacheGet cs (requestKey w ⟨chain, fs, wm, some u⟩) now with ⟨o, cs'⟩
  cases o <;> rfl

/-- Closed instance of `generateKey_sorts_in_place`: after the demo
request, the caller's factories array is the sorted one. -/
theorem generateKey_sorts_in_place_witness :
    (detectNewPairs demoWorld emptyCache 0 demoOpts).factoriesAfter =
      jsSortStrings [addrFB, addrFA] :=
  generateKey_sorts_in_place.2.1 demoWorld emptyCache 0 "base"
    [addrFB, addrFA] 1 "http://rpc.example" (by decide)
